import Mathlib

/-!
Verification of the FeatureCloud query-executor app (utils.py, states.py)
against its natural-language specification.  The Python source is shallowly
embedded: pure functions become Lean functions, Python `float` values become
rationals, fallible code returns `Option` / `Except`, and the state machine
becomes a step function driven by a fuel-bounded loop.
-/

namespace QueryExecutor

/-! ## Basic string helpers -/

/-- Numeric value of a list of decimal digit characters (most significant first). -/
def digitsVal (cs : List Char) : Nat :=
  cs.foldl (fun a c => a * 10 + (c.toNat - 48)) 0

/-- Embeds Python `float(s)` on plain decimal literals: optional sign, an
integer part, and an optional fractional part (at least one digit overall).
Returns `none` where `float` raises `ValueError`. -/
def parseFloat (s : String) : Option ℚ :=
  let cs := s.data
  let signed : Bool × List Char :=
    match cs with
    | '-' :: rest => (true, rest)
    | '+' :: rest => (false, rest)
    | _ => (false, cs)
  let ip := signed.2.takeWhile Char.isDigit
  let rest := signed.2.dropWhile Char.isDigit
  let mag : Option ℚ :=
    match rest with
    | [] => if ip.isEmpty then none else some ((digitsVal ip : ℚ))
    | '.' :: fp =>
      if fp.all Char.isDigit && !(ip.isEmpty && fp.isEmpty) then
        some ((digitsVal ip : ℚ) + (digitsVal fp : ℚ) / ((10 : ℚ) ^ fp.length))
      else none
    | _ => none
  mag.map (fun v => if signed.1 then -v else v)

/-- Embeds `"-".join(key.rsplit("-", 1)[:-1])` on the character list:
drop everything from the last `'-'` on; a key with no `'-'` becomes empty. -/
def stripKeyAux (cs : List Char) : List Char :=
  match cs.reverse.dropWhile (fun c => !(c = '-')) with
  | [] => []
  | _ :: rest => rest.reverse

/-- The attribute name obtained from a query key (utils.py line 18 / 88). -/
def stripKey (s : String) : String := String.mk (stripKeyAux s.data)

/-- Python truthiness of the sticky `last_logical_operator` variable:
`None` and `""` are falsy. -/
def truthy : Option String → Bool
  | none => false
  | some s => !(s = "")

/-- Does the character list begin with the three characters of `"and"`? -/
def startsAnd (l : List Char) : Bool :=
  match l with
  | a :: b :: c :: _ => a = 'a' && b = 'n' && c = 'd'
  | _ => false

/-- Does the character list contain `"and"` as a contiguous substring? -/
def containsAnd : List Char → Bool
  | [] => false
  | c :: cs => startsAnd (c :: cs) || containsAnd cs

/-- Embeds Python `str.replace("and", "&")`: left-to-right, non-overlapping. -/
def replaceAnd : List Char → List Char
  | a :: b :: c :: rest =>
    if a = 'a' && b = 'n' && c = 'd' then '&' :: replaceAnd rest
    else a :: replaceAnd (b :: c :: rest)
  | l => l

/-! ## Query compiler (utils.py, `transform_to_fhir_query`) -/

/-- One condition of the QuerySpec: comparison operator, comparison value,
and an optional logical operator. -/
structure Condition where
  operator : String
  value : String
  logical_operator : Option String
deriving DecidableEq, Repr

/-- One iteration of the loop in `transform_to_fhir_query`: the state is the
sticky `last_logical_operator` and the accumulated `fhir_query_parts`. -/
def tq_step (st : Option String × List String) (kv : String × Condition) :
    Option String × List String :=
  let attr := stripKey kv.1
  let last : Option String :=
    match kv.2.logical_operator with
    | some lo => some lo
    | none => st.1
  let clause := attr ++ kv.2.operator ++ kv.2.value
  let parts :=
    if truthy last && !st.2.isEmpty then st.2 ++ ["&" ++ clause]
    else st.2 ++ [clause]
  (last, parts)

/-- Embeds `transform_to_fhir_query`: fold the loop over the entries, join the
parts, replace `"and"` by `"&"`, and prepend `"q="`. -/
def transform_to_fhir_query (data : List (String × Condition)) : String :=
  let parts := (data.foldl tq_step (none, [])).2
  "q=" ++ String.mk (replaceAnd (parts.map String.data).flatten)

/-! ## Match engine (utils.py, `check_numeric_value` and `filter_results`) -/

/-- The fields `filter_results` reads from one FHIR entry: `code.coding[0].code`,
`code.coding[0].display`, `valueQuantity.value`, `valueQuantity.unit`, `issued`
(missing fields default to the empty string). -/
structure SourceRecord where
  code : String
  display : String
  numericValue : String
  unit : String
  issued : String
deriving DecidableEq, Repr

/-- A result row, as an insertion-ordered association list (a Python dict). -/
abbrev Row := List (String × String)

/-- The `filtered_item` dict built at utils.py lines 106-112. -/
def projRow (r : SourceRecord) : Row :=
  [("code", r.code), ("display", r.display), ("numeric_value", r.numericValue),
   ("unit", r.unit), ("issued", r.issued)]

/-- The operator dispatch of `check_numeric_value`; an unknown operator
yields `False`. -/
def evalCompare (op : String) (x y : ℚ) : Bool :=
  if op = "<" then decide (x < y)
  else if op = ">" then decide (y < x)
  else if op = "=" then decide (x = y)
  else if op = "<=" then decide (x ≤ y)
  else if op = ">=" then decide (y ≤ x)
  else false

/-- Embeds `check_numeric_value(value, operator, numeric_value)` as called by
`filter_results`: the first argument is the record's raw value (its `float`
conversion may fail, caught by the `except ValueError`), the third is already
a float. -/
def check_numeric_value (value : String) (op : String) (numeric_value : ℚ) : Bool :=
  match parseFloat value with
  | some x => evalCompare op x numeric_value
  | none => false

/-- The inner record loop of `filter_results` for one query entry.  On a record
whose `code` matches the stripped key, Python evaluates `float(value)` on the
entry's comparison value outside any `try`: an unparseable comparison value
raises an uncaught `ValueError`, modelled as `Except.error`. -/
def filterEntryRecords (e : String × Condition) :
    List SourceRecord → Except String (List Row)
  | [] => .ok []
  | r :: rs =>
    if r.code = stripKey e.1 then
      match parseFloat e.2.value with
      | none => .error "ValueError: could not convert string to float"
      | some y =>
        match filterEntryRecords e rs with
        | .error m => .error m
        | .ok rest =>
          .ok (if check_numeric_value r.numericValue e.2.operator y
               then projRow r :: rest else rest)
    else
      match filterEntryRecords e rs with
      | .error m => .error m
      | .ok rest => .ok rest

/-- The per-server body of `filter_results`: iterate the query entries in
order, appending each entry's matches to `filtered_list`. -/
def filterServer (payload : List (String × Condition)) (records : List SourceRecord) :
    Except String (List Row) :=
  match payload with
  | [] => .ok []
  | e :: es => do
    let rows ← filterEntryRecords e records
    let rest ← filterServer es records
    .ok (rows ++ rest)

/-- Embeds `filter_results(payload, responses)`: one output entry per server,
in iteration order. -/
def filter_results (payload : List (String × Condition)) :
    List (String × List SourceRecord) → Except String (List (String × List Row))
  | [] => .ok []
  | (s, records) :: rest => do
    let rows ← filterServer payload records
    let tail ← filter_results payload rest
    .ok ((s, rows) :: tail)

/-! ## Local file sink (utils.py, `write_to_csv`) -/

/-- Embeds `csv.DictWriter.writerow` with the default `extrasaction="raise"`:
a key outside `fieldnames` raises `ValueError`; a missing key is written as
the empty string; values are emitted in `fieldnames` order. -/
def writerowD (headers : List String) (row : Row) : Option (List String) :=
  if row.all (fun kv => headers.contains kv.1) then
    some (headers.map (fun h => (((row.find? (fun kv => kv.1 = h)).map Prod.snd)).getD ""))
  else none

/-- Embeds `write_to_csv`: headers are the keys of the first row of the FIRST
server in the dict (`list(filtered_dict.values())[0][0].keys()`); any
`IndexError` or `ValueError` is caught and reported as `none` (Python returns
`False`).  On success the produced CSV contents are returned. -/
def write_to_csv (filtered_dict : List (String × List Row)) :
    Option (List (List String)) :=
  match filtered_dict with
  | [] => none
  | (_, rows0) :: _ =>
    match rows0 with
    | [] => none
    | r0 :: _ =>
      let headers := r0.map Prod.fst
      match ((filtered_dict.map Prod.snd).flatten).mapM (writerowD headers) with
      | none => none
      | some body => some (headers :: body)

/-! ## Aggregation reducer (utils.py, `dump_all_to_csv`) -/

/-- One gathered contribution: a dict `{fc_client_id: {server_name: [rows]}}`
(the numpy 0-d object wrapper is transparent: `ndenumerate`/`flat[0]` yield
the dict itself). -/
abbrev Contribution := List (String × List (String × List Row))

/-- The header extraction
`list(list(data[0].flat[0].values())[0].values())[0][0].keys()`:
every indexing step can raise `IndexError`, caught and reported as `none`. -/
def headersOfAgg (data : List Contribution) : Option (List String) :=
  match data with
  | [] => none
  | c :: _ =>
    match c with
    | [] => none
    | (_, fr) :: _ =>
      match fr with
      | [] => none
      | (_, rows) :: _ =>
        match rows with
        | [] => none
        | row :: _ => some (row.map Prod.fst)

/-- Innermost loop of `dump_all_to_csv`: `writer.writerow(entry.values())`
for each entry of each server's data. -/
def dumpRowsServers : List (String × List Row) → List (List String)
  | [] => []
  | (_, rows) :: rest => rows.map (fun r => r.map Prod.snd) ++ dumpRowsServers rest

/-- Middle loop of `dump_all_to_csv`: over each client's servers' responses. -/
def dumpRowsClients : Contribution → List (List String)
  | [] => []
  | (_, fr) :: rest => dumpRowsServers fr ++ dumpRowsClients rest

/-- Outer loop of `dump_all_to_csv`: over each gathered numpy array. -/
def dumpRowsAll : List Contribution → List (List String)
  | [] => []
  | c :: rest => dumpRowsClients c ++ dumpRowsAll rest

/-- Embeds `dump_all_to_csv`: derive headers from the first row of the first
server of the first client of the first contribution (failure → `False`,
modelled `none`), then write every record row in encounter order. -/
def dump_all_to_csv (data : List Contribution) : Option (List (List String)) :=
  match headersOfAgg data with
  | none => none
  | some hs => some (hs :: dumpRowsAll data)

/-! ## Role-aware orchestrator (states.py) -/

/-- FeatureCloud roles. -/
inductive Role where
  | coordinator
  | participant
deriving DecidableEq, Repr

/-- The six app states declared in states.py. -/
inductive StateName where
  | initial
  | fetch
  | write
  | aggregate
  | generate_test_data
  | terminal
deriving DecidableEq, Repr

/-- Role gating of the `@app_state` decorators: `aggregate` and
`generate_test_data` are registered for the coordinator only. -/
def registered (s : StateName) (r : Role) : Bool :=
  match s with
  | .aggregate => r = .coordinator
  | .generate_test_data => r = .coordinator
  | _ => true

/-- The `run` methods of states.py, one case per state.  `writeOk`, `dumpOk`
and `sampleOk` are the boolean results of `write_to_csv`, `dump_all_to_csv`
and `sample_data`; a `False` result raises `RuntimeError` (`Except.error`).
`WriteResultsState.run` branches on `is_coordinator`;
the terminal state has no `run` method. -/
def step (role : Role) (writeOk dumpOk sampleOk : Bool) :
    StateName → Except String StateName
  | .initial => .ok .fetch
  | .fetch => .ok .write
  | .write =>
    if writeOk then
      match role with
      | .coordinator => .ok .aggregate
      | .participant => .ok .terminal
    else .error "Failed to write results."
  | .aggregate =>
    if dumpOk then .ok .generate_test_data
    else .error "Failed to write aggregated results."
  | .generate_test_data =>
    if sampleOk then .ok .terminal
    else .error "Failed to generate test data."
  | .terminal => .error "terminal state has no run method"

/-- Drive the state machine from a state with the given fuel.  Returns the
list of states executed (in order) and whether the run reached the terminal
state; a raised error or an unregistered state stops the run with `false`. -/
def runFrom (role : Role) (writeOk dumpOk sampleOk : Bool) :
    Nat → StateName → List StateName × Bool
  | _, .terminal => ([.terminal], true)
  | 0, s => ([s], false)
  | n + 1, s =>
    if registered s role then
      match step role writeOk dumpOk sampleOk s with
      | .error _ => ([s], false)
      | .ok s' =>
        let r := runFrom role writeOk dumpOk sampleOk n s'
        (s :: r.1, r.2)
    else ([s], false)

/-- A full run of one party: start at the initial state with enough fuel. -/
def partyRun (role : Role) (writeOk dumpOk sampleOk : Bool) :
    List StateName × Bool :=
  runFrom role writeOk dumpOk sampleOk 6 .initial

/-! ## Helper lemmas about `startsAnd`, `replaceAnd`, `containsAnd` -/

theorem startsAnd_fst_ne (x : Char) (l : List Char) (h : x ≠ 'a') :
    startsAnd (x :: l) = false := by
  match l with
  | [] => rfl
  | [_] => rfl
  | y :: z :: t => simp [startsAnd, h]

theorem startsAnd_snd_ne (x y : Char) (l : List Char) (h : y ≠ 'n') :
    startsAnd (x :: y :: l) = false := by
  match l with
  | [] => rfl
  | z :: t => simp [startsAnd, h]

theorem startsAnd_thd_ne (x y z : Char) (l : List Char) (h : z ≠ 'd') :
    startsAnd (x :: y :: z :: l) = false := by
  simp [startsAnd, h]

/-- The function `replaceAnd` keeps the head of the list or turns it into an ampersand. -/
theorem head?_replaceAnd (l : List Char) :
    (replaceAnd l).head? = some '&' ∨ (replaceAnd l).head? = l.head? := by
  match l with
  | [] => right; rfl
  | [_] => right; rfl
  | [_, _] => right; rfl
  | a :: b :: c :: rest =>
    by_cases h : (a = 'a' && b = 'n' && c = 'd') = true
    · left; simp [replaceAnd, h]
    · right; simp [replaceAnd, h]

/-- If `x :: m` does not start with `"and"`, neither does `x :: replaceAnd m`. -/
theorem startsAnd_cons_replaceAnd (x : Char) (m : List Char)
    (h : startsAnd (x :: m) = false) : startsAnd (x :: replaceAnd m) = false := by
  match m with
  | [] => rfl
  | [b] => exact h
  | [b, c] => exact h
  | b :: c :: d :: rest =>
    have h3 : (x = 'a' && b = 'n' && c = 'd') = false := by
      simpa [startsAnd] using h
    by_cases hc : (b = 'a' && c = 'n' && d = 'd') = true
    · -- the tail itself starts with "and": its replacement starts with '&'
      rw [show replaceAnd (b :: c :: d :: rest) = '&' :: replaceAnd rest by
        simp [replaceAnd, hc]]
      exact startsAnd_snd_ne x '&' _ (by decide)
    · rw [show replaceAnd (b :: c :: d :: rest) = b :: replaceAnd (c :: d :: rest) by
        simp [replaceAnd, hc]]
      by_cases hx : x = 'a'
      · by_cases hb : b = 'n'
        · have hcd : c ≠ 'd' := by
            subst hx hb; simpa using h3
          rcases head?_replaceAnd (c :: d :: rest) with hh | hh
          · match he : replaceAnd (c :: d :: rest) with
            | [] => simp [he] at hh
            | w :: ws =>
              rw [he] at hh
              exact startsAnd_thd_ne x b w ws (by
                simp only [List.head?] at hh
                cases hh; decide)
          · match he : replaceAnd (c :: d :: rest) with
            | [] => simp [he] at hh
            | w :: ws =>
              rw [he] at hh
              simp only [List.head?] at hh
              cases hh
              exact startsAnd_thd_ne x b c ws hcd
        · exact startsAnd_snd_ne x b _ hb
      · exact startsAnd_fst_ne x _ hx

/-- Fuel-bounded version of `containsAnd_replaceAnd`, for the induction. -/
theorem containsAnd_replaceAnd_aux (n : Nat) :
    ∀ l : List Char, l.length ≤ n → containsAnd (replaceAnd l) = false := by
  induction n with
  | zero =>
    intro l hl
    match l with
    | [] => rfl
  | succ n ih =>
    intro l hl
    match l with
    | [] => rfl
    | [a] => rfl
    | [a, b] =>
      show containsAnd [a, b] = false
      simp [containsAnd, startsAnd]
    | a :: b :: c :: rest =>
      by_cases h : (a = 'a' && b = 'n' && c = 'd') = true
      · rw [show replaceAnd (a :: b :: c :: rest) = '&' :: replaceAnd rest by
          simp [replaceAnd, h]]
        have hr : containsAnd (replaceAnd rest) = false := by
          apply ih
          simp only [List.length_cons] at hl
          omega
        simp [containsAnd, hr, startsAnd_fst_ne '&' _ (by decide)]
      · rw [show replaceAnd (a :: b :: c :: rest) = a :: replaceAnd (b :: c :: rest) by
          simp [replaceAnd, h]]
        have hr : containsAnd (replaceAnd (b :: c :: rest)) = false := by
          apply ih
          simp only [List.length_cons] at hl ⊢
          omega
        have hs : startsAnd (a :: replaceAnd (b :: c :: rest)) = false :=
          startsAnd_cons_replaceAnd a (b :: c :: rest) (by
            simpa [startsAnd] using h)
        simp [containsAnd, hs, hr]

/-- The output of `replaceAnd` never contains `"and"`: the source's
`replace("and", "&")` removes every occurrence and cannot create one. -/
theorem containsAnd_replaceAnd (l : List Char) :
    containsAnd (replaceAnd l) = false :=
  containsAnd_replaceAnd_aux l.length l (Nat.le_refl _)

/-! ## Helper lemmas about the query-compiler fold -/

/-- The clause emitted for one entry, before any joiner. -/
def clauseStr (kv : String × Condition) : String :=
  stripKey kv.1 ++ kv.2.operator ++ kv.2.value

/-- Once a truthy logical operator is sticky and at least one part has been
emitted, every remaining entry is emitted with the `"&"` joiner (any later
`logical_operator` annotation that is itself truthy keeps the stickiness). -/
theorem foldl_tq_sticky (entries : List (String × Condition)) :
    ∀ (lo : String) (parts : List String), truthy (some lo) = true → parts ≠ [] →
    (∀ e ∈ entries, e.2.logical_operator = none ∨ truthy e.2.logical_operator = true) →
    (entries.foldl tq_step (some lo, parts)).2 =
      parts ++ entries.map (fun kc => "&" ++ clauseStr kc) := by
  induction entries with
  | nil => intro lo parts _ _ _; simp
  | cons e es ih =>
    intro lo parts hlo hparts hall
    have he := hall e (List.mem_cons_self e es)
    have hes : ∀ x ∈ es, x.2.logical_operator = none ∨ truthy x.2.logical_operator = true :=
      fun x hx => hall x (List.mem_cons_of_mem e hx)
    have hne : ¬parts.isEmpty := by
      cases parts with
      | nil => exact absurd rfl hparts
      | cons p ps => simp [List.isEmpty]
    match hlast : e.2.logical_operator with
    | none =>
      have hstep : tq_step (some lo, parts) e =
          (some lo, parts ++ ["&" ++ clauseStr e]) := by
        simp [tq_step, hlast, hlo, hne, clauseStr]
      rw [List.foldl_cons, hstep, ih lo _ hlo (by simp) hes]
      simp
    | some lo' =>
      have hlo' : truthy (some lo') = true := by
        rcases he with h | h
        · rw [hlast] at h; cases h
        · rw [hlast] at h; exact h
      have hstep : tq_step (some lo, parts) e =
          (some lo', parts ++ ["&" ++ clauseStr e]) := by
        simp [tq_step, hlast, hlo', hne, clauseStr]
      rw [List.foldl_cons, hstep, ih lo' _ hlo' (by simp) hes]
      simp

/-! ## Claim C3 -/

/-- Refutes claim C3 at a concrete input: for the single-condition QuerySpec
`{"code": {"operator": "<", "value": "5"}}` (key carrying no disambiguator)
the compiled query is NOT `"q=" + "code" + "<" + "5"`; the key's last
`'-'`-separated segment is stripped unconditionally, leaving an empty field
name, so the result is `"q=<5"`. -/
theorem transform_single_no_hyphen_key_not_unchanged :
    transform_to_fhir_query [("code", Condition.mk "<" "5" none)] ≠
      "q=" ++ "code" ++ "<" ++ "5" := by
  decide

/-- Amended claim C3: for a QuerySpec with exactly one condition and no
`logical_operator`, the compiled query is `"q="` followed by
`field + operator + value` with every `"and"` occurrence replaced by `"&"`,
where `field` is the key with its final `'-'`-separated segment removed
(a key containing no `'-'` yields the empty field name); no joiner appears. -/
theorem transform_single_condition_eq (k : String) (c : Condition)
    (h : c.logical_operator = none) :
    transform_to_fhir_query [(k, c)] =
      "q=" ++ String.mk (replaceAnd (stripKey k ++ c.operator ++ c.value).data) := by
  simp [transform_to_fhir_query, tq_step, h, truthy]

/-- Witness for `transform_single_condition_eq` at the concrete entry
`{"code-1": {"operator": "<", "value": "5"}}`. -/
theorem transform_single_condition_eq_witness :
    transform_to_fhir_query [("code-1", Condition.mk "<" "5" none)] =
      "q=" ++ String.mk (replaceAnd (stripKey "code-1" ++ "<" ++ "5").data) :=
  transform_single_condition_eq "code-1" (Condition.mk "<" "5" none) rfl

/-! ## Claim C6 -/

/-- Claim C6: for a QuerySpec with two or more conditions whose first
condition carries a truthy `logical_operator` (and no later condition resets
it to a falsy one), the first clause is unprefixed and every subsequent
clause is prefixed with the literal joiner `"&"`, independently of that
clause's own comparison operator; and the compiled string contains no
`"and"` substring, whatever the field names and values are. -/
theorem transform_sticky_joiner_eq (k1 : String) (c1 : Condition)
    (rest : List (String × Condition))
    (h1 : truthy c1.logical_operator = true) (h2 : rest ≠ [])
    (h3 : ∀ e ∈ rest, e.2.logical_operator = none ∨ truthy e.2.logical_operator = true) :
    transform_to_fhir_query ((k1, c1) :: rest) =
      "q=" ++ String.mk (replaceAnd
        ((clauseStr (k1, c1) :: rest.map (fun kc => "&" ++ clauseStr kc)).map
          String.data).flatten)
    ∧ containsAnd (transform_to_fhir_query ((k1, c1) :: rest)).data = false := by
  match hlast : c1.logical_operator with
  | none => rw [hlast] at h1; cases h1
  | some lo =>
    have hlo : truthy (some lo) = true := by rw [hlast] at h1; exact h1
    have hstep : tq_step (none, []) (k1, c1) = (some lo, [clauseStr (k1, c1)]) := by
      simp [tq_step, hlast, clauseStr]
    have hfold : ((k1, c1) :: rest).foldl tq_step (none, []) =
        rest.foldl tq_step (some lo, [clauseStr (k1, c1)]) := by
      rw [List.foldl_cons, hstep]
    have hparts : (((k1, c1) :: rest).foldl tq_step (none, [])).2 =
        clauseStr (k1, c1) :: rest.map (fun kc => "&" ++ clauseStr kc) := by
      rw [hfold, foldl_tq_sticky rest lo [clauseStr (k1, c1)] hlo (by simp) h3]
      simp
    constructor
    · rw [transform_to_fhir_query, hparts]
    · rw [transform_to_fhir_query, hparts]
      have : ("q=" ++ String.mk (replaceAnd
          ((clauseStr (k1, c1) :: rest.map (fun kc => "&" ++ clauseStr kc)).map
            String.data).flatten)).data =
          'q' :: '=' :: replaceAnd
            ((clauseStr (k1, c1) :: rest.map (fun kc => "&" ++ clauseStr kc)).map
              String.data).flatten := rfl
      rw [this]
      simp [containsAnd, startsAnd_fst_ne 'q' _ (by decide),
        startsAnd_fst_ne '=' _ (by decide), containsAnd_replaceAnd]

/-- Witness for `transform_sticky_joiner_eq` at the two-condition QuerySpec
`{"a-1": {">", "3", logical_operator "and"}, "b-2": {"<", "9"}}`. -/
theorem transform_sticky_joiner_eq_witness :
    transform_to_fhir_query
        [("a-1", Condition.mk ">" "3" (some "and")), ("b-2", Condition.mk "<" "9" none)] =
      "q=" ++ String.mk (replaceAnd
        ((clauseStr ("a-1", Condition.mk ">" "3" (some "and")) ::
          [("b-2", Condition.mk "<" "9" none)].map (fun kc => "&" ++ clauseStr kc)).map
          String.data).flatten)
    ∧ containsAnd (transform_to_fhir_query
        [("a-1", Condition.mk ">" "3" (some "and")), ("b-2", Condition.mk "<" "9" none)]).data =
      false :=
  transform_sticky_joiner_eq "a-1" (Condition.mk ">" "3" (some "and"))
    [("b-2", Condition.mk "<" "9" none)] (by decide) (by simp) (by simp)

/-! ## Helper lemmas about the match engine -/

/-- The row (if any) that one query entry emits for one record, assuming the
entry's comparison value parses: code must equal the stripped key and the
comparison must hold. -/
def emitRow (e : String × Condition) (r : SourceRecord) : Option Row :=
  if r.code = stripKey e.1 then
    match parseFloat e.2.value with
    | none => none
    | some y =>
      if check_numeric_value r.numericValue e.2.operator y then some (projRow r)
      else none
  else none

/-- A successful inner loop collects exactly the rows `emitRow` selects,
in record order. -/
theorem filterEntryRecords_ok (e : String × Condition) :
    ∀ (records : List SourceRecord) (rows : List Row),
    filterEntryRecords e records = .ok rows → rows = records.filterMap (emitRow e) := by
  intro records
  induction records with
  | nil => intro rows h; cases h; rfl
  | cons r rs ih =>
    intro rows h
    by_cases hc : r.code = stripKey e.1
    · rw [filterEntryRecords, if_pos hc] at h
      match hp : parseFloat e.2.value with
      | none => rw [hp] at h; cases h
      | some y =>
        rw [hp] at h
        match hrec : filterEntryRecords e rs with
        | .error m => rw [hrec] at h; cases h
        | .ok rest =>
          rw [hrec] at h
          cases h
          rw [List.filterMap_cons]
          by_cases hchk : check_numeric_value r.numericValue e.2.operator y = true
          · simp [emitRow, hc, hp, hchk, ih rest hrec]
          · simp [emitRow, hc, hp, hchk, ih rest hrec]
    · rw [filterEntryRecords, if_neg hc] at h
      match hrec : filterEntryRecords e rs with
      | .error m => rw [hrec] at h; cases h
      | .ok rest =>
        rw [hrec] at h
        cases h
        simp only [List.filterMap_cons, emitRow, hc, if_false, reduceIte]
        exact ih _ hrec

/-- If no record's code matches the entry's stripped key, the inner loop
succeeds with no rows (the comparison value is never parsed). -/
theorem filterEntryRecords_no_match (e : String × Condition) :
    ∀ records : List SourceRecord, (∀ r ∈ records, r.code ≠ stripKey e.1) →
    filterEntryRecords e records = .ok [] := by
  intro records
  induction records with
  | nil => intro _; rfl
  | cons r rs ih =>
    intro h
    rw [filterEntryRecords, if_neg (h r (List.mem_cons_self r rs)),
      ih (fun x hx => h x (List.mem_cons_of_mem r hx))]

/-- A successful per-server pass returns the per-entry row groups
concatenated in query-entry order. -/
theorem filterServer_ok :
    ∀ (payload : List (String × Condition)) (records : List SourceRecord)
      (rows : List Row), filterServer payload records = .ok rows →
    rows = (payload.map (fun e => records.filterMap (emitRow e))).flatten := by
  intro payload
  induction payload with
  | nil => intro records rows h; cases h; rfl
  | cons e es ih =>
    intro records rows h
    rw [filterServer] at h
    match he : filterEntryRecords e records with
    | .error m => rw [he] at h; cases h
    | .ok group =>
      rw [he] at h
      match hes : filterServer es records with
      | .error m => rw [hes] at h; cases h
      | .ok rest =>
        rw [hes] at h
        cases h
        rw [List.map_cons, List.flatten_cons, filterEntryRecords_ok e records group he,
          ih records rest hes]

/-- A successful `filter_results` pairs each input server, in order, with a
successful per-server pass. -/
theorem filter_results_ok_forall₂ (payload : List (String × Condition)) :
    ∀ (responses : List (String × List SourceRecord))
      (res : List (String × List Row)), filter_results payload responses = .ok res →
    List.Forall₂ (fun p q => q.1 = p.1 ∧ filterServer payload p.2 = .ok q.2)
      responses res := by
  intro responses
  induction responses with
  | nil => intro res h; cases h; exact List.Forall₂.nil
  | cons p ps ih =>
    intro res h
    match p with
    | (s, records) =>
      rw [filter_results] at h
      match hs : filterServer payload records with
      | .error m => rw [hs] at h; cases h
      | .ok rows =>
        rw [hs] at h
        match hr : filter_results payload ps with
        | .error m => rw [hr] at h; cases h
        | .ok tail =>
          rw [hr] at h
          cases h
          exact List.Forall₂.cons ⟨rfl, hs⟩ (ih tail hr)

/-- Unfolds `check_numeric_value` into the two parses and the five-operator
comparison. -/
theorem check_numeric_value_eq_true (v op : String) (y : ℚ) :
    check_numeric_value v op y = true ↔
      ∃ x, parseFloat v = some x ∧ evalCompare op x y = true := by
  rw [check_numeric_value]
  match hv : parseFloat v with
  | none => simp
  | some x => simp

/-- Characterizes `emitRow`. -/
theorem emitRow_eq_some (e : String × Condition) (r : SourceRecord) (row : Row) :
    emitRow e r = some row ↔
      row = projRow r ∧ r.code = stripKey e.1 ∧
      ∃ y, parseFloat e.2.value = some y ∧
        check_numeric_value r.numericValue e.2.operator y = true := by
  rw [emitRow]
  by_cases hc : r.code = stripKey e.1
  · rw [if_pos hc]
    match hp : parseFloat e.2.value with
    | none =>
      constructor
      · intro h; cases h
      · intro ⟨_, _, y, hy, _⟩; cases hy
    | some y =>
      show (if check_numeric_value r.numericValue e.2.operator y = true
        then some (projRow r) else none) = some row ↔ _
      by_cases hchk : check_numeric_value r.numericValue e.2.operator y = true
      · rw [if_pos hchk]
        constructor
        · intro h; cases h; exact ⟨rfl, hc, y, rfl, hchk⟩
        · intro ⟨h1, _, _⟩; rw [h1]
      · rw [if_neg hchk]
        constructor
        · intro h; cases h
        · intro ⟨h1, h2, y', hy, hchk'⟩
          cases hy
          exact absurd hchk' hchk
  · rw [if_neg hc]
    constructor
    · intro h; cases h
    · intro ⟨_, h2, _⟩; exact absurd h2 hc

/-! ## Claim C1 -/

/-- Evidence for claim C1's failing input: with the QuerySpec
`{"code-1": {"operator": "<", "value": "abc"}}` and a record whose code is
`"code"`, `filter_results` evaluates `float("abc")` outside any `try` and the
run aborts with `ValueError` — it is NOT a silent exclusion.  By contrast a
record-side parse failure (`numericValue = "xyz"`), and a comparison-value
parse failure at a record whose code does not match, are silently excluded
as the claim says. -/
theorem comparison_value_parse_aborts_run :
    filter_results [("code-1", Condition.mk "<" "abc" none)]
        [("s1", [SourceRecord.mk "code" "d" "5" "u" "i"])] =
      .error "ValueError: could not convert string to float"
    ∧ filter_results [("code-1", Condition.mk "<" "10" none)]
        [("s1", [SourceRecord.mk "code" "d" "xyz" "u" "i"])] =
      .ok [("s1", [])]
    ∧ filter_results [("code-1", Condition.mk "<" "abc" none)]
        [("s1", [SourceRecord.mk "other" "d" "5" "u" "i"])] =
      .ok [("s1", [])] := by
  refine ⟨rfl, rfl, rfl⟩

/-! ## Claim C7 -/

/-- Claim C7: whenever `filter_results` succeeds, a row is in a server's
filtered list iff some QuerySpec entry's stripped field name equals some
record's code at that server and the entry's comparison operator (one of
`<`, `>`, `=`, `<=`, `>=`; anything else compares false) holds between the
parsed `numericValue` and the parsed comparison value, the row being that
record's projection; in particular a record whose code matches no entry
never appears. -/
theorem filter_results_membership_iff (payload : List (String × Condition))
    (responses : List (String × List SourceRecord)) (res : List (String × List Row))
    (h : filter_results payload responses = .ok res) :
    ∀ p ∈ responses.zip res,
      (∀ row, row ∈ p.2.2 ↔
        ∃ e ∈ payload, ∃ r ∈ p.1.2, row = projRow r ∧ r.code = stripKey e.1 ∧
          ∃ x y, parseFloat r.numericValue = some x ∧ parseFloat e.2.value = some y ∧
            evalCompare e.2.operator x y = true)
      ∧ (∀ r ∈ p.1.2, (∀ e ∈ payload, r.code ≠ stripKey e.1) → projRow r ∉ p.2.2) := by
  intro p hp
  have hf := filter_results_ok_forall₂ payload responses res h
  have hrel := List.forall₂_zip hf hp
  have hrows : p.2.2 = (payload.map (fun e => p.1.2.filterMap (emitRow e))).flatten :=
    filterServer_ok payload p.1.2 p.2.2 hrel.2
  constructor
  · intro row
    rw [hrows, List.mem_flatten]
    constructor
    · intro ⟨grp, hgrp, hrow⟩
      rcases List.mem_map.1 hgrp with ⟨e, he, hge⟩
      rcases List.mem_filterMap.1 (hge ▸ hrow) with ⟨r, hr, hemit⟩
      rcases (emitRow_eq_some e r row).1 hemit with ⟨h1, h2, y, hy, hchk⟩
      rcases (check_numeric_value_eq_true _ _ _).1 hchk with ⟨x, hx, hcmp⟩
      exact ⟨e, he, r, hr, h1, h2, x, y, hx, hy, hcmp⟩
    · intro ⟨e, he, r, hr, h1, h2, x, y, hx, hy, hcmp⟩
      refine ⟨p.1.2.filterMap (emitRow e), List.mem_map.2 ⟨e, he, rfl⟩, ?_⟩
      exact List.mem_filterMap.2 ⟨r, hr,
        (emitRow_eq_some e r row).2
          ⟨h1, h2, y, hy, (check_numeric_value_eq_true _ _ _).2 ⟨x, hx, hcmp⟩⟩⟩
  · intro r hr hnone hmem
    rw [hrows, List.mem_flatten] at hmem
    rcases hmem with ⟨grp, hgrp, hrow⟩
    rcases List.mem_map.1 hgrp with ⟨e, he, hge⟩
    rcases List.mem_filterMap.1 (hge ▸ hrow) with ⟨r', hr', hemit⟩
    rcases (emitRow_eq_some e r' (projRow r)).1 hemit with ⟨h1, h2, _⟩
    have : r.code = r'.code := by
      have := congrArg (fun l => l.head?) h1
      simpa [projRow] using this
    exact hnone e he (this ▸ h2)

/-- Witness for `filter_results_membership_iff`: the record with code
`"code"` and value `"5"` is emitted for the entry `{"code-1": {"<", "10"}}`. -/
theorem filter_results_membership_iff_witness :
    projRow (SourceRecord.mk "code" "d" "5" "u" "i") ∈
      [projRow (SourceRecord.mk "code" "d" "5" "u" "i")] :=
  ((filter_results_membership_iff
      [("code-1", Condition.mk "<" "10" none)]
      [("s1", [SourceRecord.mk "code" "d" "5" "u" "i"])]
      [("s1", [projRow (SourceRecord.mk "code" "d" "5" "u" "i")])]
      rfl
      (("s1", [SourceRecord.mk "code" "d" "5" "u" "i"]),
        ("s1", [projRow (SourceRecord.mk "code" "d" "5" "u" "i")]))
      (by simp)).1
    (projRow (SourceRecord.mk "code" "d" "5" "u" "i"))).2
    ⟨("code-1", Condition.mk "<" "10" none), by simp,
      SourceRecord.mk "code" "d" "5" "u" "i", by simp, rfl, by decide,
      5, 10, by decide, by decide, by decide⟩

/-! ## Claim C9 -/

/-- Claim C9: a successful per-server pass returns the rows grouped by query
entry (all rows for the first entry, then all rows for the second, ...), each
group in record order; in particular, for a source holding a single record,
that record's projection is emitted once per query entry that matches and
satisfies it (`k` matching entries → `k` copies). -/
theorem filter_server_grouped_and_multiplicity
    (payload : List (String × Condition)) (records : List SourceRecord)
    (rows : List Row) (h : filterServer payload records = .ok rows) :
    rows = (payload.map (fun e => records.filterMap (emitRow e))).flatten ∧
    ∀ r, records = [r] →
      rows = List.replicate (payload.countP (fun e => (emitRow e r).isSome))
        (projRow r) := by
  refine ⟨filterServer_ok payload records rows h, ?_⟩
  intro r hrec
  subst hrec
  rw [filterServer_ok payload [r] rows h]
  clear h
  induction payload with
  | nil => rfl
  | cons e es ih =>
    rw [List.map_cons, List.flatten_cons, List.countP_cons]
    match hemit : emitRow e r with
    | none =>
      rw [List.filterMap_cons, hemit]
      simpa [hemit] using ih
    | some row =>
      have hrow : row = projRow r := ((emitRow_eq_some e r row).1 hemit).1
      subst hrow
      rw [List.filterMap_cons, hemit]
      simp only [hemit, Option.isSome_some, if_true, ih]
      rw [List.replicate_succ]
      rfl

/-- Witness for `filter_server_grouped_and_multiplicity`: two entries
(`code-1` and `code-2`) both match the single record with code `"code"`,
so its projection is emitted twice, grouped by entry. -/
theorem filter_server_grouped_and_multiplicity_witness :
    ([projRow (SourceRecord.mk "code" "d" "5" "u" "i"),
      projRow (SourceRecord.mk "code" "d" "5" "u" "i")] : List Row) =
      ([("code-1", Condition.mk "<" "10" none), ("code-2", Condition.mk ">" "1" none)].map
        (fun e => [SourceRecord.mk "code" "d" "5" "u" "i"].filterMap (emitRow e))).flatten
    ∧ ([projRow (SourceRecord.mk "code" "d" "5" "u" "i"),
        projRow (SourceRecord.mk "code" "d" "5" "u" "i")] : List Row) =
      List.replicate
        (([("code-1", Condition.mk "<" "10" none), ("code-2", Condition.mk ">" "1" none)]).countP
          (fun e => (emitRow e (SourceRecord.mk "code" "d" "5" "u" "i")).isSome))
        (projRow (SourceRecord.mk "code" "d" "5" "u" "i")) :=
  ⟨(filter_server_grouped_and_multiplicity
      [("code-1", Condition.mk "<" "10" none), ("code-2", Condition.mk ">" "1" none)]
      [SourceRecord.mk "code" "d" "5" "u" "i"] _ rfl).1,
   (filter_server_grouped_and_multiplicity
      [("code-1", Condition.mk "<" "10" none), ("code-2", Condition.mk ">" "1" none)]
      [SourceRecord.mk "code" "d" "5" "u" "i"] _ rfl).2
      (SourceRecord.mk "code" "d" "5" "u" "i") rfl⟩

/-! ## Claim C10 -/

/-- Claim C10: a successful `filter_results` keeps exactly the input's server
keys, in the same order (so a server with no matching record is paired with
the empty list rather than omitted); the embedding is pure, so the input is
never mutated. -/
theorem filter_results_preserves_servers
    (payload : List (String × Condition))
    (responses : List (String × List SourceRecord)) (res : List (String × List Row))
    (h : filter_results payload responses = .ok res) :
    res.map Prod.fst = responses.map Prod.fst ∧
    ∀ p ∈ responses.zip res,
      (∀ r ∈ p.1.2, ∀ e ∈ payload, r.code ≠ stripKey e.1) → p.2.2 = [] := by
  have hf := filter_results_ok_forall₂ payload responses res h
  clear h
  constructor
  · induction hf with
    | nil => rfl
    | cons h1 _ ih => simp [h1.1, ih]
  · intro p hp hnone
    have hrel := List.forall₂_zip hf hp
    rw [filterServer_ok payload p.1.2 p.2.2 hrel.2]
    rw [List.flatten_eq_nil_iff]
    intro l hl
    rcases List.mem_map.1 hl with ⟨e, he, hle⟩
    rw [← hle, List.filterMap_eq_nil_iff]
    intro r hr
    rw [emitRow, if_neg (hnone r hr e he)]

/-- Witness for `filter_results_preserves_servers`: two servers, the second
holding only a record whose code matches no query entry; the server keys are
preserved and the second server maps to the empty list. -/
theorem filter_results_preserves_servers_witness :
    ([("s1", [projRow (SourceRecord.mk "code" "d" "5" "u" "i")]), ("s2", [])] :
        List (String × List Row)).map Prod.fst =
      ([("s1", [SourceRecord.mk "code" "d" "5" "u" "i"]),
        ("s2", [SourceRecord.mk "zzz" "d" "5" "u" "i"])] :
        List (String × List SourceRecord)).map Prod.fst
    ∧ (("s2", [SourceRecord.mk "zzz" "d" "5" "u" "i"]), ("s2", ([] : List Row))).2.2 = [] :=
  ⟨(filter_results_preserves_servers
      [("code-1", Condition.mk "<" "10" none)]
      [("s1", [SourceRecord.mk "code" "d" "5" "u" "i"]),
        ("s2", [SourceRecord.mk "zzz" "d" "5" "u" "i"])]
      [("s1", [projRow (SourceRecord.mk "code" "d" "5" "u" "i")]), ("s2", [])]
      rfl).1,
   (filter_results_preserves_servers
      [("code-1", Condition.mk "<" "10" none)]
      [("s1", [SourceRecord.mk "code" "d" "5" "u" "i"]),
        ("s2", [SourceRecord.mk "zzz" "d" "5" "u" "i"])]
      [("s1", [projRow (SourceRecord.mk "code" "d" "5" "u" "i")]), ("s2", [])]
      rfl).2
      (("s2", [SourceRecord.mk "zzz" "d" "5" "u" "i"]), ("s2", []))
      (by simp)
      (by decide)⟩

/-! ## Claim C2 -/

/-- Refutes claim C2 at a concrete input: the FilteredResult
`{"s1": [], "s2": [{"code": "A"}]}` has a non-empty source, yet
`write_to_csv` fails (Python: `list(filtered_dict.values())[0][0]` raises
`IndexError` on the FIRST source, which is empty, before any non-empty
source is considered). -/
theorem write_to_csv_empty_first_source_fails :
    write_to_csv [("s1", []), ("s2", [[("code", "A")]])] = none := rfl

/-- A dict-writer row write succeeds on a row whose key list equals the header list. -/
theorem writerowD_of_keys_eq (headers : List String) (row : Row)
    (h : row.map Prod.fst = headers) : ∃ out, writerowD headers row = some out := by
  have hcond : row.all (fun kv => headers.contains kv.1) = true := by
    rw [List.all_eq_true]
    intro kv hkv
    rw [List.elem_iff, ← h]
    exact List.mem_map.2 ⟨kv, hkv, rfl⟩
  exact ⟨headers.map (fun hd => (((row.find? (fun kv => kv.1 = hd)).map Prod.snd)).getD ""),
    by rw [writerowD, if_pos hcond]⟩

/-- Writing every row succeeds when all key lists equal the header list. -/
theorem mapM_writerowD_of_keys_eq (headers : List String) :
    ∀ rows : List Row, (∀ row ∈ rows, row.map Prod.fst = headers) →
    ∃ body, rows.mapM (writerowD headers) = some body := by
  intro rows
  induction rows with
  | nil => intro _; exact ⟨[], rfl⟩
  | cons row rest ih =>
    intro h
    rcases writerowD_of_keys_eq headers row (h row (List.mem_cons_self row rest)) with
      ⟨out, hout⟩
    rcases ih (fun x hx => h x (List.mem_cons_of_mem row hx)) with ⟨body, hbody⟩
    refine ⟨out :: body, ?_⟩
    rw [List.mapM_cons, hout, hbody]
    rfl

/-- Amended claim C2: `write_to_csv` succeeds and writes a header row equal
to the keys of the first row of the FIRST source, provided that first source
is non-empty (and, as for every FilteredResult built by the match engine,
every row carries the same key list); when the first source is empty the
write fails even if a later source is non-empty. -/
theorem write_to_csv_first_source_nonempty_ok (s : String) (r0 : Row)
    (rs : List Row) (rest : List (String × List Row))
    (hkeys : ∀ p ∈ ((s, r0 :: rs) :: rest), ∀ row ∈ p.2,
      row.map Prod.fst = r0.map Prod.fst) :
    ∃ body, write_to_csv ((s, r0 :: rs) :: rest) =
      some ((r0.map Prod.fst) :: body) := by
  have hall : ∀ row ∈ ((((s, r0 :: rs) :: rest).map Prod.snd).flatten),
      row.map Prod.fst = r0.map Prod.fst := by
    intro row hrow
    rcases List.mem_flatten.1 hrow with ⟨l, hl, hrl⟩
    rcases List.mem_map.1 hl with ⟨p, hp, hpl⟩
    exact hkeys p hp row (hpl ▸ hrl)
  rcases mapM_writerowD_of_keys_eq (r0.map Prod.fst) _ hall with ⟨body, hbody⟩
  refine ⟨body, ?_⟩
  rw [write_to_csv, hbody]

/-- Witness for `write_to_csv_first_source_nonempty_ok` at the single-source
FilteredResult `{"s1": [{"code": "A", "display": "B"}]}`. -/
theorem write_to_csv_first_source_nonempty_ok_witness :
    ∃ body, write_to_csv [("s1", [[("code", "A"), ("display", "B")]])] =
      some (([(("code" : String), ("A" : String)), ("display", "B")].map Prod.fst) :: body) :=
  write_to_csv_first_source_nonempty_ok "s1" [("code", "A"), ("display", "B")] [] []
    (by simp)

/-! ## Claim C5 -/

/-- Refutes claim C5 at a concrete input: a single contribution whose first
source sequence is empty while its second source holds one row.  The very
first row encountered in iteration order would be that row, but
`dump_all_to_csv` fails (Python derives headers by indexing
`[0][0]` into the FIRST source, raising `IndexError`) and emits nothing. -/
theorem dump_all_empty_first_source_fails :
    dump_all_to_csv [[("p1", [("s1", []), ("s2", [[("code", "A")]])])]] = none := rfl

/-- The innermost dump loop equals a flatten of per-server value rows. -/
theorem dumpRowsServers_eq :
    ∀ l : List (String × List Row), dumpRowsServers l =
      (l.map (fun sv => sv.2.map (fun r => r.map Prod.snd))).flatten := by
  intro l
  induction l with
  | nil => rfl
  | cons sv rest ih =>
    match sv with
    | (_, rows) => rw [dumpRowsServers, List.map_cons, List.flatten_cons, ih]

/-- The middle dump loop equals a flatten of per-client flattened rows. -/
theorem dumpRowsClients_eq :
    ∀ c : Contribution, dumpRowsClients c =
      (c.map (fun pc =>
        (pc.2.map (fun sv => sv.2.map (fun r => r.map Prod.snd))).flatten)).flatten := by
  intro c
  induction c with
  | nil => rfl
  | cons pc rest ih =>
    match pc with
    | (_, fr) =>
      rw [dumpRowsClients, List.map_cons, List.flatten_cons, ih, dumpRowsServers_eq]

/-- The outer dump loop equals the full three-level flatten. -/
theorem dumpRowsAll_eq :
    ∀ data : List Contribution, dumpRowsAll data =
      (data.map (fun c => (c.map (fun pc =>
        (pc.2.map (fun sv => sv.2.map (fun r => r.map Prod.snd))).flatten)).flatten)).flatten := by
  intro data
  induction data with
  | nil => rfl
  | cons c rest ih =>
    rw [dumpRowsAll, List.map_cons, List.flatten_cons, ih, dumpRowsClients_eq]

/-- Amended claim C5: provided the FIRST source of the first party of the
first contribution has at least one row, the reducer emits exactly one flat
output row per record row across all contributions, in encounter order
(contributions in receipt order, then sources in mapping iteration order,
then rows in sequence order), and the column header set is the key set of
the first row of that first source; when that first source sequence is empty
the dump fails even if later sources hold rows. -/
theorem dump_all_flattening_ok (p s : String) (row0 : Row) (rows0 : List Row)
    (servers : List (String × List Row)) (clients : Contribution)
    (contribs : List Contribution) :
    dump_all_to_csv (((p, (s, row0 :: rows0) :: servers) :: clients) :: contribs) =
      some ((row0.map Prod.fst) ::
        dumpRowsAll (((p, (s, row0 :: rows0) :: servers) :: clients) :: contribs))
    ∧ dumpRowsAll (((p, (s, row0 :: rows0) :: servers) :: clients) :: contribs) =
      (((((p, (s, row0 :: rows0) :: servers) :: clients) :: contribs).map
        (fun c => (c.map (fun pc =>
          (pc.2.map (fun sv => sv.2.map (fun r => r.map Prod.snd))).flatten)).flatten)).flatten)
    ∧ (dumpRowsAll (((p, (s, row0 :: rows0) :: servers) :: clients) :: contribs)).length =
      (((((p, (s, row0 :: rows0) :: servers) :: clients) :: contribs).map
        (fun c => (c.map (fun pc => (pc.2.map (fun sv => sv.2.length)).sum)).sum)).sum) := by
  refine ⟨rfl, dumpRowsAll_eq _, ?_⟩
  rw [dumpRowsAll_eq, List.length_flatten]
  congr 1
  rw [List.map_map]
  apply List.map_congr_left
  intro c _
  rw [Function.comp_apply, List.length_flatten, List.map_map]
  congr 1
  apply List.map_congr_left
  intro pc _
  rw [Function.comp_apply, List.length_flatten, List.map_map]
  congr 1
  apply List.map_congr_left
  intro sv _
  rw [Function.comp_apply, List.length_map]

/-- Witness for `dump_all_flattening_ok` at two single-source contributions
with one row each. -/
theorem dump_all_flattening_ok_witness :
    dump_all_to_csv [[("p1", [("s1", [[("code", "A"), ("x", "1")]])])],
        [("p2", [("s1", [[("code", "B"), ("x", "2")]])])]] =
      some (([(("code" : String), ("A" : String)), ("x", "1")].map Prod.fst) ::
        dumpRowsAll [[("p1", [("s1", [[("code", "A"), ("x", "1")]])])],
          [("p2", [("s1", [[("code", "B"), ("x", "2")]])])]]) :=
  (dump_all_flattening_ok "p1" "s1" [("code", "A"), ("x", "1")] [] [] []
    [[("p2", [("s1", [[("code", "B"), ("x", "2")]])])]]).1

/-! ## Claim C4 -/

/-- Claim C4: whatever the outcomes of the fallible operations, a participant
run never executes the Aggregate or GenerateTestData states (its Write state
transitions directly to Terminal); a coordinator run in which every
operation succeeds executes Write → Aggregate → GenerateTestData → Terminal. -/
theorem role_gating_trajectories :
    (∀ w a g : Bool,
      StateName.aggregate ∉ (partyRun .participant w a g).1 ∧
      StateName.generate_test_data ∉ (partyRun .participant w a g).1) ∧
    partyRun .coordinator true true true =
      ([.initial, .fetch, .write, .aggregate, .generate_test_data, .terminal], true) ∧
    partyRun .participant true true true =
      ([.initial, .fetch, .write, .terminal], true) := by
  decide

/-! ## Claim C8 -/

/-- Claim C8: whenever the Write, Aggregate or GenerateTestData operation
reports failure, that state raises the corresponding `RuntimeError` and the
run stops there — the next state is never entered and the run does not reach
terminal. -/
theorem fatal_failure_halts_run :
    (∀ (r : Role) (a g : Bool),
      step r false a g .write = .error "Failed to write results.") ∧
    (∀ (r : Role) (w g : Bool),
      step r w false g .aggregate = .error "Failed to write aggregated results.") ∧
    (∀ (r : Role) (w a : Bool),
      step r w a false .generate_test_data = .error "Failed to generate test data.") ∧
    (∀ (r : Role) (a g : Bool),
      partyRun r false a g = ([.initial, .fetch, .write], false)) ∧
    (∀ g : Bool, partyRun .coordinator true false g =
      ([.initial, .fetch, .write, .aggregate], false)) ∧
    partyRun .coordinator true true false =
      ([.initial, .fetch, .write, .aggregate, .generate_test_data], false) := by
  refine ⟨?_, ?_, ?_, ?_, ?_, rfl⟩
  · intro r a g; cases r <;> cases a <;> cases g <;> rfl
  · intro r w g; cases r <;> cases w <;> cases g <;> rfl
  · intro r w a; cases r <;> cases w <;> cases a <;> rfl
  · intro r a g; cases r <;> cases a <;> cases g <;> rfl
  · intro g; cases g <;> rfl

end QueryExecutor
